import Mathlib

/-!
Verification of the Wyndo job-management authentication core.

Shallow embedding of the auth subsystem under services/api/src:
session and user rows are records, the database is lists of rows, and
every handler becomes a pure function from a database state (plus the
request inputs and the values produced by the runtime random generators,
which are passed in explicitly) to a response and a new database state.
Times are natural numbers (milliseconds for session rows, seconds for
JWT expiry fields); randomly generated tokens are taken as parameters
with freshness hypotheses where the property needs them.
-/

namespace Wyndo

/-- A Session row (prisma model Session as used by tokenService.ts):
`token` is the current access-token value, `refreshToken` the current
opaque refresh-token value. -/
structure Session where
  id : String
  userId : String
  token : String
  refreshToken : String
  deviceId : String
  ipAddress : Option String
  userAgent : String
  createdAt : Nat
  lastUsedAt : Nat
  expiresAt : Nat
deriving DecidableEq

/-- A User row with the fields the auth flows read and write.
`backupCodes` holds the list of stored backup-code strings (the column
value parsed as by authController.verifyMfa); `mfaSecret` holds the
encrypted-blob text produced by utils/encryption.ts. -/
structure User where
  id : String
  email : String
  passwordHash : Option String
  name : Option String
  mfaEnabled : Bool
  mfaSecret : Option (List Char)
  backupCodes : Option (List String)
  passwordResetTokenHash : Option String
  passwordResetTokenExpiry : Option Nat
  deletedAt : Option Nat
  lastLoginAt : Option Nat
  subscriptionTier : String
  subscriptionStatus : String
  trialEndsAt : Option Nat
deriving DecidableEq

/-- A Device row (prisma model Device, authService.recordDevice). -/
structure Device where
  userId : String
  deviceId : String
  name : String
  platform : String
  lastUsedAt : Nat
deriving DecidableEq

/-- The persistent store: the three tables the auth core touches. -/
structure DB where
  users : List User
  sessions : List Session
  devices : List Device
deriving DecidableEq

/-! ### JWT model (jsonwebtoken as used by tokenService.ts)

A signed token is its payload plus a signature; `mac` abstracts the
HMAC-SHA256 computation of jwt.sign over the serialized payload, and
jwt.verify checks the signature and the `exp` claim (seconds). -/

/-- Payload of the JWTs the token service signs: a userId claim, a type
tag, and the expiry timestamp (seconds since epoch). -/
structure JwtPayload where
  userId : String
  type : String
  exp : Nat
deriving DecidableEq

/-- A signed JWT: payload plus signature. -/
structure SignedToken where
  payload : JwtPayload
  sig : String
deriving DecidableEq

/-- jwt.sign: attach the MAC of the payload under the secret. -/
def jwtSign (mac : String → JwtPayload → String) (secret : String)
    (p : JwtPayload) : SignedToken :=
  ⟨p, mac secret p⟩

/-- jwt.verify: returns the payload when the signature matches and the
token is not expired (jsonwebtoken rejects once now reaches exp);
returns none otherwise (the try/catch around jwt.verify). -/
def jwtVerify (mac : String → JwtPayload → String) (secret : String)
    (t : SignedToken) (now : Nat) : Option JwtPayload :=
  if t.sig = mac secret t.payload ∧ now < t.payload.exp then some t.payload else none

/-- TokenService.createTempToken: sign {userId, type: mfa_temp} with a
10-minute (600 s) expiry. -/
def createTempToken (mac : String → JwtPayload → String) (secret : String)
    (userId : String) (now : Nat) : SignedToken :=
  jwtSign mac secret { userId := userId, type := "mfa_temp", exp := now + 600 }

/-- TokenService.verifyTempToken: jwt.verify, then reject unless the
type tag is mfa_temp; any failure yields none. Stateless: reads and
writes no store. -/
def verifyTempToken (mac : String → JwtPayload → String) (secret : String)
    (t : SignedToken) (now : Nat) : Option String :=
  match jwtVerify mac secret t now with
  | none => none
  | some p => if p.type ≠ "mfa_temp" then none else some p.userId

/-! ### TokenService session operations -/

/-- TokenService.createSession: append one Session row with a 7-day
absolute expiry. The freshly generated access and refresh tokens are
passed in as `accessToken` and `refreshToken`. -/
def createSession (db : DB) (sid userId accessToken refreshToken deviceId : String)
    (ipAddress : Option String) (userAgent : String) (now : Nat) :
    (String × String) × DB :=
  ((accessToken, refreshToken),
   { db with sessions := db.sessions ++
      [{ id := sid, userId := userId, token := accessToken,
         refreshToken := refreshToken, deviceId := deviceId,
         ipAddress := ipAddress, userAgent := userAgent,
         createdAt := now, lastUsedAt := now,
         expiresAt := now + 7 * 24 * 60 * 60 * 1000 }] })

/-- TokenService.refreshAccessToken: look the session up by refresh
token (findUnique); return null when absent or past expiresAt;
otherwise overwrite the session row in place (update keyed by id) with
the new access token, new refresh token and lastUsedAt, and return the
new pair. `newAccessToken` and `newRefreshToken` stand for the freshly
generated values. -/
def refreshAccessToken (db : DB) (refreshToken newAccessToken newRefreshToken : String)
    (now : Nat) : Option (String × String) × DB :=
  match db.sessions.find? (fun s => s.refreshToken == refreshToken) with
  | none => (none, db)
  | some s =>
    if s.expiresAt < now then (none, db)
    else
      (some (newAccessToken, newRefreshToken),
       { db with sessions := db.sessions.map (fun x =>
          if x.id = s.id then
            { x with token := newAccessToken, refreshToken := newRefreshToken,
                     lastUsedAt := now }
          else x) })

/-- TokenService.revokeAllSessions: deleteMany where userId. -/
def revokeAllSessions (db : DB) (userId : String) : DB :=
  { db with sessions := db.sessions.filter (fun s => ¬ s.userId = userId) }

/-- AuthService.recordDevice: prisma upsert keyed by (userId, deviceId);
update refreshes lastUsedAt, create inserts the row. -/
def recordDevice (db : DB) (userId deviceId name platform : String) (now : Nat) : DB :=
  if db.devices.any (fun d => d.userId == userId && d.deviceId == deviceId) then
    { db with devices := db.devices.map (fun d =>
        if d.userId = userId ∧ d.deviceId = deviceId then { d with lastUsedAt := now } else d) }
  else
    { db with devices := db.devices ++
        [{ userId := userId, deviceId := deviceId, name := name,
           platform := platform, lastUsedAt := now }] }

/-! ### Helper lemmas on refresh rotation -/

/-- After a successful refresh, no session row carries the old refresh
token, provided the old value was unique in the table and the newly
generated value differs from it. -/
theorem refreshAccessToken_rotates (db : DB) (rt na nr : String) (now : Nat)
    (s : Session) (hmem : s ∈ db.sessions) (hrt : s.refreshToken = rt)
    (huniq : ∀ x ∈ db.sessions, x.refreshToken = rt → x = s)
    (hexp : ¬ s.expiresAt < now) (hfresh : nr ≠ rt) :
    (refreshAccessToken db rt na nr now).1 = some (na, nr) ∧
    ∀ x ∈ (refreshAccessToken db rt na nr now).2.sessions, x.refreshToken ≠ rt := by
  have hfind : db.sessions.find? (fun x => x.refreshToken == rt) = some s := by
    rcases hf : db.sessions.find? (fun x => x.refreshToken == rt) with _ | s'
    · exfalso
      have := List.find?_eq_none.mp hf s hmem
      simp [hrt] at this
    · have h1 : s'.refreshToken = rt := by
        have := List.find?_some hf
        simpa using this
      have h2 : s' ∈ db.sessions := List.mem_of_find?_eq_some hf
      rw [← huniq s' h2 h1]
      exact hf
  constructor
  · simp [refreshAccessToken, hfind, hexp]
  · intro x hx
    simp only [refreshAccessToken, hfind, if_neg hexp] at hx
    simp only [List.mem_map] at hx
    rcases hx with ⟨y, hy, rfl⟩
    by_cases hid : y.id = s.id
    · simp [hid, hfresh]
    · simp only [if_neg hid]
      intro hyr
      exact hid (congrArg Session.id (huniq y hy hyr))

/-- A refresh with a token value no session carries fails. -/
theorem refreshAccessToken_fails_of_absent (db : DB) (rt na nr : String) (now : Nat)
    (habs : ∀ x ∈ db.sessions, x.refreshToken ≠ rt) :
    (refreshAccessToken db rt na nr now).1 = none := by
  have hfind : db.sessions.find? (fun x => x.refreshToken == rt) = none := by
    apply List.find?_eq_none.mpr
    intro x hx
    simpa using habs x hx
  simp [refreshAccessToken, hfind]

/-- C1: Refresh tokens are single-use. For a session whose stored
refresh-token value is rt (unique, unexpired), refresh(rt) succeeds and
returns the freshly generated access and refresh tokens, the stored
refresh token is overwritten in place, and a second refresh(rt) with
the old value returns null. -/
theorem refresh_token_single_use (db : DB) (rt na nr na2 nr2 : String)
    (now now2 : Nat) (s : Session)
    (hmem : s ∈ db.sessions) (hrt : s.refreshToken = rt)
    (huniq : ∀ x ∈ db.sessions, x.refreshToken = rt → x = s)
    (hexp : ¬ s.expiresAt < now) (hfresh : nr ≠ rt) :
    (refreshAccessToken db rt na nr now).1 = some (na, nr) ∧
    (refreshAccessToken (refreshAccessToken db rt na nr now).2 rt na2 nr2 now2).1 = none := by
  obtain ⟨h1, h2⟩ := refreshAccessToken_rotates db rt na nr now s hmem hrt huniq hexp hfresh
  exact ⟨h1, refreshAccessToken_fails_of_absent _ rt na2 nr2 now2 h2⟩

/-- Witness for C1 at a concrete one-session database. -/
theorem refresh_token_single_use_witness :
    (refreshAccessToken
        { users := [], sessions :=
            [{ id := "s1", userId := "u1", token := "a0", refreshToken := "r0",
               deviceId := "d1", ipAddress := none, userAgent := "ua",
               createdAt := 0, lastUsedAt := 0, expiresAt := 1000 }],
          devices := [] } "r0" "a1" "r1" 5).1 = some ("a1", "r1") ∧
    (refreshAccessToken
        (refreshAccessToken
          { users := [], sessions :=
              [{ id := "s1", userId := "u1", token := "a0", refreshToken := "r0",
                 deviceId := "d1", ipAddress := none, userAgent := "ua",
                 createdAt := 0, lastUsedAt := 0, expiresAt := 1000 }],
            devices := [] } "r0" "a1" "r1" 5).2 "r0" "a2" "r2" 6).1 = none := by
  exact refresh_token_single_use _ "r0" "a1" "r1" "a2" "r2" 5 6
    { id := "s1", userId := "u1", token := "a0", refreshToken := "r0",
      deviceId := "d1", ipAddress := none, userAgent := "ua",
      createdAt := 0, lastUsedAt := 0, expiresAt := 1000 }
    (by simp) (by decide) (by intro x hx; simp at hx; simp [hx]) (by decide) (by decide)

/-! ### Login (mounted handler: routes/auth.ts POST /login) -/

/-- Outcome of the login route. `mfaRequired` carries only the
temporary MFA token; `success` carries the access/refresh pair. -/
inductive LoginResult where
  | invalidCredentials
  | mfaRequired (tempToken : SignedToken)
  | success (accessToken refreshToken : String)
deriving DecidableEq

/-- routes/auth.ts POST /login: find the user by email; reject when
absent, soft-deleted, or without a password hash; verify the password
(the bcrypt comparison is abstracted as `verifyPassword`); when
mfaEnabled, answer with requiresMfa plus a temp token and change
nothing; otherwise update lastLoginAt, create a session and record the
device. `sid`, `accessToken`, `refreshToken` stand for the freshly
generated identifiers. -/
def login (mac : String → JwtPayload → String) (jwtSecret : String)
    (verifyPassword : String → String → Bool) (db : DB)
    (email password : String) (now : Nat)
    (sid accessToken refreshToken deviceId deviceName platform userAgent : String)
    (ip : Option String) : LoginResult × DB :=
  match db.users.find? (fun u => u.email == email) with
  | none => (.invalidCredentials, db)
  | some u =>
    if u.deletedAt.isSome then (.invalidCredentials, db)
    else
      match u.passwordHash with
      | none => (.invalidCredentials, db)
      | some ph =>
        if ¬ verifyPassword password ph then (.invalidCredentials, db)
        else if u.mfaEnabled then
          (.mfaRequired (createTempToken mac jwtSecret u.id now), db)
        else
          let db1 : DB := { db with users := db.users.map (fun v =>
            if v.id = u.id then { v with lastLoginAt := some now } else v) }
          let r := createSession db1 sid u.id accessToken refreshToken deviceId ip userAgent now
          let db3 := recordDevice r.2 u.id deviceId deviceName platform now
          (.success accessToken refreshToken, db3)

/-- C2: for a user with mfaEnabled, a login with the correct password
answers only requiresMfa plus the temp token — no access or refresh
token is issued and the database (in particular the Session table) is
left unchanged. -/
theorem login_mfa_no_session (mac : String → JwtPayload → String)
    (jwtSecret : String) (verifyPassword : String → String → Bool) (db : DB)
    (email password : String) (now : Nat)
    (sid accessToken refreshToken deviceId deviceName platform userAgent : String)
    (ip : Option String) (u : User) (ph : String)
    (hfind : db.users.find? (fun v => v.email == email) = some u)
    (hdel : u.deletedAt = none) (hph : u.passwordHash = some ph)
    (hpw : verifyPassword password ph = true) (hmfa : u.mfaEnabled = true) :
    (login mac jwtSecret verifyPassword db email password now
        sid accessToken refreshToken deviceId deviceName platform userAgent ip).1 =
      .mfaRequired (createTempToken mac jwtSecret u.id now) ∧
    (login mac jwtSecret verifyPassword db email password now
        sid accessToken refreshToken deviceId deviceName platform userAgent ip).2 = db := by
  constructor <;> simp [login, hfind, hdel, hph, hpw, hmfa]

/-- Witness for C2 at a concrete one-user database. -/
theorem login_mfa_no_session_witness :
    (login (fun s p => s ++ p.userId) "sec" (fun p h => p ++ "#" == h)
        { users := [{ id := "u1", email := "a@x.com", passwordHash := some "pw#",
                      name := none, mfaEnabled := true, mfaSecret := none,
                      backupCodes := none, passwordResetTokenHash := none,
                      passwordResetTokenExpiry := none, deletedAt := none,
                      lastLoginAt := none, subscriptionTier := "FREE",
                      subscriptionStatus := "TRIAL", trialEndsAt := none }],
          sessions := [], devices := [] }
        "a@x.com" "pw" 100 "s1" "a1" "r1" "d1" "Mac" "web" "ua" none).1 =
      .mfaRequired (createTempToken (fun s p => s ++ p.userId) "sec" "u1" 100) ∧
    (login (fun s p => s ++ p.userId) "sec" (fun p h => p ++ "#" == h)
        { users := [{ id := "u1", email := "a@x.com", passwordHash := some "pw#",
                      name := none, mfaEnabled := true, mfaSecret := none,
                      backupCodes := none, passwordResetTokenHash := none,
                      passwordResetTokenExpiry := none, deletedAt := none,
                      lastLoginAt := none, subscriptionTier := "FREE",
                      subscriptionStatus := "TRIAL", trialEndsAt := none }],
          sessions := [], devices := [] }
        "a@x.com" "pw" 100 "s1" "a1" "r1" "d1" "Mac" "web" "ua" none).2 =
      { users := [{ id := "u1", email := "a@x.com", passwordHash := some "pw#",
                    name := none, mfaEnabled := true, mfaSecret := none,
                    backupCodes := none, passwordResetTokenHash := none,
                    passwordResetTokenExpiry := none, deletedAt := none,
                    lastLoginAt := none, subscriptionTier := "FREE",
                    subscriptionStatus := "TRIAL", trialEndsAt := none }],
        sessions := [], devices := [] } := by
  exact login_mfa_no_session _ _ _ _ _ _ _ _ _ _ _ _ _ _ _
    { id := "u1", email := "a@x.com", passwordHash := some "pw#",
      name := none, mfaEnabled := true, mfaSecret := none,
      backupCodes := none, passwordResetTokenHash := none,
      passwordResetTokenExpiry := none, deletedAt := none,
      lastLoginAt := none, subscriptionTier := "FREE",
      subscriptionStatus := "TRIAL", trialEndsAt := none } "pw#"
    (by decide) rfl rfl (by decide) rfl

/-! ### Password reset (authService.ts and routes/auth.ts) -/

/-- AuthService.verifyPasswordResetToken: findFirst over users whose
stored reset-token hash equals sha256(token) and whose expiry lies
strictly in the future; the sha256 computation is abstracted as
`sha256`. -/
def verifyPasswordResetToken (sha256 : String → String) (db : DB)
    (token : String) (now : Nat) : Option String :=
  (db.users.find? (fun u =>
      u.passwordResetTokenHash == some (sha256 token) &&
      match u.passwordResetTokenExpiry with
      | some e => decide (now < e)
      | none => false)).map (fun u => u.id)

/-- Outcome of POST /password/reset/confirm. -/
inductive ResetConfirmResult where
  | invalidToken
  | ok
deriving DecidableEq

/-- routes/auth.ts POST /password/reset/confirm: verify the reset
token; on success store the new password hash (`newPasswordHash`
stands for hashPassword(password)), null both reset-token fields, and
revoke every session of that user. -/
def confirmPasswordReset (sha256 : String → String) (db : DB)
    (token newPasswordHash : String) (now : Nat) : ResetConfirmResult × DB :=
  match verifyPasswordResetToken sha256 db token now with
  | none => (.invalidToken, db)
  | some uid =>
    let db1 : DB := { db with users := db.users.map (fun u =>
      if u.id = uid then
        { u with passwordHash := some newPasswordHash,
                 passwordResetTokenHash := none,
                 passwordResetTokenExpiry := none }
      else u) }
    (.ok, revokeAllSessions db1 uid)

/-- C3: password reset confirm with a valid, unexpired token sets the
new password hash, clears the reset-token hash and expiry on the user,
and deletes every session of that user — zero sessions remain. -/
theorem password_reset_confirm_revokes_all (sha256 : String → String) (db : DB)
    (token newPasswordHash : String) (now : Nat) (u : User) (e : Nat)
    (hmem : u ∈ db.users)
    (hhash : u.passwordResetTokenHash = some (sha256 token))
    (hexp : u.passwordResetTokenExpiry = some e) (hnow : now < e)
    (huniq : ∀ x ∈ db.users,
      x.passwordResetTokenHash = some (sha256 token) → x = u) :
    (confirmPasswordReset sha256 db token newPasswordHash now).1 = .ok ∧
    (∀ v ∈ (confirmPasswordReset sha256 db token newPasswordHash now).2.users,
        v.id = u.id →
          v.passwordHash = some newPasswordHash ∧
          v.passwordResetTokenHash = none ∧
          v.passwordResetTokenExpiry = none) ∧
    (confirmPasswordReset sha256 db token newPasswordHash now).2.sessions.filter
        (fun s => s.userId == u.id) = [] := by
  have hpred : (fun x : User =>
      x.passwordResetTokenHash == some (sha256 token) &&
      match x.passwordResetTokenExpiry with
      | some e => decide (now < e)
      | none => false) u = true := by
    simp [hhash, hexp, hnow]
  have hfind : db.users.find? (fun x =>
      x.passwordResetTokenHash == some (sha256 token) &&
      match x.passwordResetTokenExpiry with
      | some e => decide (now < e)
      | none => false) = some u := by
    rcases hf : db.users.find? (fun x =>
      x.passwordResetTokenHash == some (sha256 token) &&
      match x.passwordResetTokenExpiry with
      | some e => decide (now < e)
      | none => false) with _ | u'
    · exfalso
      have := List.find?_eq_none.mp hf u hmem
      exact this hpred
    · have h1 := List.find?_some hf
      have h2 : u' ∈ db.users := List.mem_of_find?_eq_some hf
      have h3 : u'.passwordResetTokenHash = some (sha256 token) := by
        have := Bool.and_elim_left h1
        simpa using this
      rw [← huniq u' h2 h3]
      exact hf
  have hverify : verifyPasswordResetToken sha256 db token now = some u.id := by
    simp [verifyPasswordResetToken, hfind]
  refine ⟨?_, ?_, ?_⟩
  · simp [confirmPasswordReset, hverify]
  · intro v hv hvid
    simp only [confirmPasswordReset, hverify, revokeAllSessions] at hv
    simp only [List.mem_map] at hv
    rcases hv with ⟨w, _, rfl⟩
    by_cases hw : w.id = u.id
    · simp [hw] at hvid ⊢
    · simp only [if_neg hw] at hvid ⊢
      exact absurd hvid hw
  · simp only [confirmPasswordReset, hverify, revokeAllSessions]
    rw [List.filter_eq_nil_iff]
    intro s hs
    simp only [List.mem_filter] at hs
    simpa using hs.2

/-- Witness for C3 at a concrete database with one user and two of
their sessions. -/
theorem password_reset_confirm_revokes_all_witness :
    (confirmPasswordReset (fun t => t ++ "!")
        { users := [{ id := "u1", email := "a@x.com", passwordHash := some "old",
                      name := none, mfaEnabled := false, mfaSecret := none,
                      backupCodes := none, passwordResetTokenHash := some "tok!",
                      passwordResetTokenExpiry := some 100, deletedAt := none,
                      lastLoginAt := none, subscriptionTier := "FREE",
                      subscriptionStatus := "TRIAL", trialEndsAt := none }],
          sessions :=
            [{ id := "s1", userId := "u1", token := "a1", refreshToken := "r1",
               deviceId := "d1", ipAddress := none, userAgent := "ua",
               createdAt := 0, lastUsedAt := 0, expiresAt := 1000 },
             { id := "s2", userId := "u1", token := "a2", refreshToken := "r2",
               deviceId := "d2", ipAddress := none, userAgent := "ua",
               createdAt := 0, lastUsedAt := 0, expiresAt := 1000 }],
          devices := [] } "tok" "newHash" 50).1 = .ok ∧
    (∀ v ∈ (confirmPasswordReset (fun t => t ++ "!")
        { users := [{ id := "u1", email := "a@x.com", passwordHash := some "old",
                      name := none, mfaEnabled := false, mfaSecret := none,
                      backupCodes := none, passwordResetTokenHash := some "tok!",
                      passwordResetTokenExpiry := some 100, deletedAt := none,
                      lastLoginAt := none, subscriptionTier := "FREE",
                      subscriptionStatus := "TRIAL", trialEndsAt := none }],
          sessions :=
            [{ id := "s1", userId := "u1", token := "a1", refreshToken := "r1",
               deviceId := "d1", ipAddress := none, userAgent := "ua",
               createdAt := 0, lastUsedAt := 0, expiresAt := 1000 },
             { id := "s2", userId := "u1", token := "a2", refreshToken := "r2",
               deviceId := "d2", ipAddress := none, userAgent := "ua",
               createdAt := 0, lastUsedAt := 0, expiresAt := 1000 }],
          devices := [] } "tok" "newHash" 50).2.users,
        v.id = "u1" →
          v.passwordHash = some "newHash" ∧
          v.passwordResetTokenHash = none ∧
          v.passwordResetTokenExpiry = none) ∧
    (confirmPasswordReset (fun t => t ++ "!")
        { users := [{ id := "u1", email := "a@x.com", passwordHash := some "old",
                      name := none, mfaEnabled := false, mfaSecret := none,
                      backupCodes := none, passwordResetTokenHash := some "tok!",
                      passwordResetTokenExpiry := some 100, deletedAt := none,
                      lastLoginAt := none, subscriptionTier := "FREE",
                      subscriptionStatus := "TRIAL", trialEndsAt := none }],
          sessions :=
            [{ id := "s1", userId := "u1", token := "a1", refreshToken := "r1",
               deviceId := "d1", ipAddress := none, userAgent := "ua",
               createdAt := 0, lastUsedAt := 0, expiresAt := 1000 },
             { id := "s2", userId := "u1", token := "a2", refreshToken := "r2",
               deviceId := "d2", ipAddress := none, userAgent := "ua",
               createdAt := 0, lastUsedAt := 0, expiresAt := 1000 }],
          devices := [] } "tok" "newHash" 50).2.sessions.filter
        (fun s => s.userId == "u1") = [] := by
  exact password_reset_confirm_revokes_all _ _ "tok" "newHash" 50
    { id := "u1", email := "a@x.com", passwordHash := some "old",
      name := none, mfaEnabled := false, mfaSecret := none,
      backupCodes := none, passwordResetTokenHash := some "tok!",
      passwordResetTokenExpiry := some 100, deletedAt := none,
      lastLoginAt := none, subscriptionTier := "FREE",
      subscriptionStatus := "TRIAL", trialEndsAt := none } 100
    (by simp) (by decide) (by decide) (by decide)
    (by intro x hx; simp at hx; simp [hx])

/-! ### Symmetric encryption (utils/encryption.ts)

The blob format and the key-derivation plumbing are embedded exactly;
the AES-256-GCM cipher core and PBKDF2 (node crypto library calls) are
abstracted as a `CryptoPrim` whose decrypt-inverts-encrypt property is
taken as a hypothesis where the round-trip needs it. Plaintexts are
byte lists (the utf8 bytes the node cipher consumes). -/

/-- Lowercase hex digit, as Buffer.toString with hex encoding emits. -/
def hexDigit (n : Fin 16) : Char :=
  if n.val < 10 then Char.ofNat ('0'.toNat + n.val)
  else Char.ofNat ('a'.toNat + (n.val - 10))

/-- Two hex digits of one byte, high nibble first. -/
def byteToHex (b : Fin 256) : List Char :=
  [hexDigit ⟨b.val / 16, by have := b.isLt; omega⟩,
   hexDigit ⟨b.val % 16, by have := b.isLt; omega⟩]

/-- Hex encoding of a byte list. -/
def hexEncode : List (Fin 256) → List Char
  | [] => []
  | b :: bs => byteToHex b ++ hexEncode bs

/-- Value of one hex digit character (48-57 are the digit codpoints,
97-102 the lowercase letters). -/
def hexDigitVal (c : Char) : Option (Fin 16) :=
  if h : 48 ≤ c.toNat ∧ c.toNat ≤ 57 then
    some ⟨c.toNat - 48, by omega⟩
  else if h2 : 97 ≤ c.toNat ∧ c.toNat ≤ 102 then
    some ⟨c.toNat - 97 + 10, by omega⟩
  else none

/-- Hex decoding back to bytes; fails on odd length or a non-hex
character. -/
def hexDecode : List Char → Option (List (Fin 256))
  | [] => some []
  | c1 :: c2 :: rest =>
    match hexDigitVal c1, hexDigitVal c2, hexDecode rest with
    | some h, some l, some bs =>
      some (⟨h.val * 16 + l.val, by have := h.isLt; have := l.isLt; omega⟩ :: bs)
    | _, _, _ => none
  | [_] => none

theorem hexDigitVal_hexDigit : ∀ n : Fin 16, hexDigitVal (hexDigit n) = some n := by
  decide

theorem hexDigit_ne_colon : ∀ n : Fin 16, hexDigit n ≠ ':' := by
  decide

theorem colon_not_mem_byteToHex (b : Fin 256) : ':' ∉ byteToHex b := by
  simp only [byteToHex, List.mem_cons, List.not_mem_nil, or_false]
  exact fun h => h.elim (fun h1 => hexDigit_ne_colon _ h1.symm)
    (fun h1 => hexDigit_ne_colon _ h1.symm)

theorem colon_not_mem_hexEncode (bs : List (Fin 256)) : ':' ∉ hexEncode bs := by
  induction bs with
  | nil => simp [hexEncode]
  | cons b bs ih =>
    simp only [hexEncode, List.mem_append]
    exact fun h => h.elim (colon_not_mem_byteToHex b) ih

theorem hexDecode_hexEncode (bs : List (Fin 256)) :
    hexDecode (hexEncode bs) = some bs := by
  induction bs with
  | nil => rfl
  | cons b bs ih =>
    show hexDecode (hexDigit _ :: hexDigit _ :: hexEncode bs) = _
    simp only [hexDecode, hexDigitVal_hexDigit, ih]
    simp only [Option.some.injEq, List.cons.injEq]
    refine ⟨Fin.ext ?_, trivial⟩
    have := b.isLt
    simp only []
    omega

theorem hexEncode_injective : Function.Injective hexEncode := by
  intro a b h
  have ha := hexDecode_hexEncode a
  rw [h, hexDecode_hexEncode] at ha
  exact (Option.some_inj.mp ha).symm

/-- JS String.prototype.split on a colon, over character lists. -/
def splitColon : List Char → List (List Char)
  | [] => [[]]
  | c :: cs =>
    match splitColon cs with
    | [] => [[]]
    | h :: t => if c = ':' then [] :: h :: t else (c :: h) :: t

theorem splitColon_ne_nil (l : List Char) : splitColon l ≠ [] := by
  cases l with
  | nil => simp [splitColon]
  | cons c cs =>
    simp only [splitColon]
    rcases splitColon cs with _ | ⟨h, t⟩
    · simp
    · by_cases hc : c = ':' <;> simp [hc]

theorem splitColon_no_colon (a : List Char) (ha : ':' ∉ a) :
    splitColon a = [a] := by
  induction a with
  | nil => rfl
  | cons c cs ih =>
    have hc : c ≠ ':' := fun h => ha (h ▸ List.mem_cons_self c cs)
    have hcs : ':' ∉ cs := fun h => ha (List.mem_cons_of_mem c h)
    simp [splitColon, ih hcs, hc]

theorem splitColon_append (a rest : List Char) (ha : ':' ∉ a) :
    splitColon (a ++ ':' :: rest) = a :: splitColon rest := by
  induction a with
  | nil =>
    simp only [List.nil_append, splitColon]
    rcases h : splitColon rest with _ | ⟨hd, t⟩
    · exact absurd h (splitColon_ne_nil rest)
    · simp
  | cons c cs ih =>
    have hc : c ≠ ':' := fun h => ha (h ▸ List.mem_cons_self c cs)
    have hcs : ':' ∉ cs := fun h => ha (List.mem_cons_of_mem c h)
    simp only [List.cons_append, splitColon, List.append_eq, ih hcs, hc, if_false]

/-- The node crypto primitives used by utils/encryption.ts: PBKDF2 key
derivation (100000 iterations, sha256) and the AES-256-GCM core
(ciphertext, auth tag, and inverse). -/
structure CryptoPrim where
  pbkdf2 : String → List (Fin 256) → List (Fin 256)
  gcmEncrypt : List (Fin 256) → List (Fin 256) → List (Fin 256) → List (Fin 256)
  gcmTag : List (Fin 256) → List (Fin 256) → List (Fin 256) → List (Fin 256)
  gcmDecrypt : List (Fin 256) → List (Fin 256) → List (Fin 256) → List (Fin 256)

/-- utils/encryption.ts encrypt: derive the key from the caller key and
the fresh random salt, run the cipher with the fresh random iv, and
join the four hex fields salt, iv, auth tag, ciphertext with colons.
The random salt and iv are passed in as parameters. -/
def encryptBlob (prim : CryptoPrim) (key : String)
    (p salt iv : List (Fin 256)) : List Char :=
  let dk := prim.pbkdf2 key salt
  let ct := prim.gcmEncrypt dk iv p
  let tag := prim.gcmTag dk iv ct
  hexEncode salt ++ ':' :: (hexEncode iv ++ ':' :: (hexEncode tag ++ ':' :: hexEncode ct))

/-- utils/encryption.ts decrypt: split on colons and reject unless
exactly four fields; decode the hex fields; re-derive the key from the
embedded salt; authenticate (the GCM final() throw on tag mismatch) and
decrypt. -/
def decryptBlob (prim : CryptoPrim) (key : String) (blob : List Char) :
    Except String (List (Fin 256)) :=
  match splitColon blob with
  | [saltHex, ivHex, tagHex, ctHex] =>
    match hexDecode saltHex, hexDecode ivHex, hexDecode tagHex, hexDecode ctHex with
    | some salt, some iv, some tag, some ct =>
      let dk := prim.pbkdf2 key salt
      if prim.gcmTag dk iv ct = tag then Except.ok (prim.gcmDecrypt dk iv ct)
      else Except.error "Unsupported state or unable to authenticate data"
    | _, _, _, _ => Except.error "bad hex"
  | _ => Except.error "Invalid encrypted data format"

theorem splitColon_encryptBlob (prim : CryptoPrim) (key : String)
    (p salt iv : List (Fin 256)) :
    splitColon (encryptBlob prim key p salt iv) =
      [hexEncode salt, hexEncode iv,
       hexEncode (prim.gcmTag (prim.pbkdf2 key salt) iv
         (prim.gcmEncrypt (prim.pbkdf2 key salt) iv p)),
       hexEncode (prim.gcmEncrypt (prim.pbkdf2 key salt) iv p)] := by
  unfold encryptBlob
  rw [splitColon_append _ _ (colon_not_mem_hexEncode salt),
      splitColon_append _ _ (colon_not_mem_hexEncode iv),
      splitColon_append _ _ (colon_not_mem_hexEncode _),
      splitColon_no_colon _ (colon_not_mem_hexEncode _)]

/-- A trivial cipher instance used by the concrete witnesses: identity
cipher, empty derived key, ciphertext echoed as its own tag. -/
def plainPrim : CryptoPrim where
  pbkdf2 := fun _ _ => []
  gcmEncrypt := fun _ _ p => p
  gcmTag := fun _ _ ct => ct
  gcmDecrypt := fun _ _ ct => ct

/-- C7: the blob round-trips (decrypt of encrypt returns the plaintext
whenever the cipher core inverts itself), the blob splits into exactly
the four colon-joined hex fields salt, iv, auth tag, ciphertext, and
two encryptions of the same plaintext and key under distinct random
salts yield distinct blobs. -/
theorem encrypt_roundtrip_format_distinct (prim : CryptoPrim) (key : String)
    (p salt iv salt2 iv2 : List (Fin 256))
    (hgcm : ∀ k i pt, prim.gcmDecrypt k i (prim.gcmEncrypt k i pt) = pt)
    (hsalt : salt ≠ salt2) :
    decryptBlob prim key (encryptBlob prim key p salt iv) = Except.ok p ∧
    splitColon (encryptBlob prim key p salt iv) =
      [hexEncode salt, hexEncode iv,
       hexEncode (prim.gcmTag (prim.pbkdf2 key salt) iv
         (prim.gcmEncrypt (prim.pbkdf2 key salt) iv p)),
       hexEncode (prim.gcmEncrypt (prim.pbkdf2 key salt) iv p)] ∧
    encryptBlob prim key p salt iv ≠ encryptBlob prim key p salt2 iv2 := by
  refine ⟨?_, splitColon_encryptBlob prim key p salt iv, ?_⟩
  · unfold decryptBlob
    rw [splitColon_encryptBlob]
    simp [hexDecode_hexEncode, hgcm]
  · intro h
    have h2 := congrArg splitColon h
    rw [splitColon_encryptBlob, splitColon_encryptBlob] at h2
    have h3 : hexEncode salt = hexEncode salt2 := by
      injection h2
    exact hsalt (hexEncode_injective h3)

/-- Witness for C7 with the trivial cipher at concrete bytes. -/
theorem encrypt_roundtrip_format_distinct_witness :
    decryptBlob plainPrim "k" (encryptBlob plainPrim "k" [7] [2] [4]) =
      Except.ok [7] ∧
    splitColon (encryptBlob plainPrim "k" [7] [2] [4]) =
      [hexEncode [2], hexEncode [4],
       hexEncode (plainPrim.gcmTag (plainPrim.pbkdf2 "k" [2]) [4]
         (plainPrim.gcmEncrypt (plainPrim.pbkdf2 "k" [2]) [4] [7])),
       hexEncode (plainPrim.gcmEncrypt (plainPrim.pbkdf2 "k" [2]) [4] [7])] ∧
    encryptBlob plainPrim "k" [7] [2] [4] ≠ encryptBlob plainPrim "k" [7] [3] [4] := by
  exact encrypt_roundtrip_format_distinct plainPrim "k" [7] [2] [4] [3] [4]
    (fun _ _ _ => rfl) (by decide)

/-! ### TOTP (speakeasy.totp.verify) and the MFA flows -/

/-- speakeasy.totp.verify with a window: the submitted code is accepted
when it matches the expected code at some time step within the window
each side of the current step `t`. The HMAC-based code computation is
abstracted as `totp`. -/
def totpVerify (totp : List (Fin 256) → Int → String) (secret : List (Fin 256))
    (code : String) (window : Nat) (t : Int) : Bool :=
  (List.range (2 * window + 1)).any (fun i =>
    totp secret (t - window + i) == code)

/-- Window acceptance is exactly membership of the code in the set of
codes of the time steps at distance at most `window`. -/
theorem totpVerify_iff (totp : List (Fin 256) → Int → String)
    (secret : List (Fin 256)) (code : String) (window : Nat) (t : Int) :
    totpVerify totp secret code window t = true ↔
      ∃ d : Int, d.natAbs ≤ window ∧ totp secret (t + d) = code := by
  unfold totpVerify
  rw [List.any_eq_true]
  constructor
  · rintro ⟨i, hi, h⟩
    rw [List.mem_range] at hi
    rw [beq_iff_eq] at h
    refine ⟨(i : Int) - window, by omega, ?_⟩
    have e : t - (window : Int) + i = t + ((i : Int) - window) := by ring
    rw [e] at h
    exact h
  · rintro ⟨d, hd, h⟩
    refine ⟨(d + window).toNat, ?_, ?_⟩
    · rw [List.mem_range]
      omega
    · rw [beq_iff_eq]
      have e : t - (window : Int) + ((d + window).toNat : Int) = t + d := by omega
      rw [e]
      exact h

/-- The backup-code fallback of authController.verifyMfa: indexOf on
the stored code list, then splice of exactly that index; none when the
submitted code is not present. -/
def consumeBackupCode (codes : List String) (code : String) :
    Option (List String) :=
  match codes.findIdx? (fun c => c == code) with
  | none => none
  | some i => some (codes.eraseIdx i)

/-- Outcome of POST /mfa/verify (authController.verifyMfa). -/
inductive MfaVerifyResult where
  | invalidToken
  | notConfigured
  | invalidCode
  | decryptFailure
  | success (accessToken refreshToken : String)
deriving DecidableEq

/-- Tail of authController.verifyMfa after the code check: create the
session, record the device, update lastLoginAt, answer with the token
pair. -/
def finishMfaLogin (db : DB) (u : User)
    (sid accessToken refreshToken deviceId : String) (ip : Option String)
    (userAgent deviceName platform : String) (now : Nat) :
    MfaVerifyResult × DB :=
  let r := createSession db sid u.id accessToken refreshToken deviceId ip userAgent now
  let db2 := recordDevice r.2 u.id deviceId deviceName platform now
  let db3 : DB := { db2 with users := db2.users.map (fun v =>
    if v.id = u.id then { v with lastLoginAt := some now } else v) }
  (.success accessToken refreshToken, db3)

/-- authController.verifyMfa: resolve the temp token; load the user and
the encrypted secret; decrypt (a decrypt throw is caught as a 500);
verify the TOTP code with window 1; on failure fall back to the stored
backup codes, consuming the matched one; on either success create the
session. -/
def verifyMfa (mac : String → JwtPayload → String) (jwtSecret : String)
    (prim : CryptoPrim) (encKey : String)
    (totp : List (Fin 256) → Int → String) (db : DB)
    (tempToken : SignedToken) (code : String) (now : Nat) (tstep : Int)
    (sid accessToken refreshToken deviceId deviceName platform userAgent : String)
    (ip : Option String) : MfaVerifyResult × DB :=
  match verifyTempToken mac jwtSecret tempToken now with
  | none => (.invalidToken, db)
  | some userId =>
    match db.users.find? (fun u => u.id == userId) with
    | none => (.notConfigured, db)
    | some u =>
      match u.mfaSecret with
      | none => (.notConfigured, db)
      | some blob =>
        match decryptBlob prim encKey blob with
        | .error _ => (.decryptFailure, db)
        | .ok secret =>
          if totpVerify totp secret code 1 tstep then
            finishMfaLogin db u sid accessToken refreshToken deviceId ip
              userAgent deviceName platform now
          else
            match u.backupCodes with
            | none => (.invalidCode, db)
            | some codes =>
              match consumeBackupCode codes code with
              | none => (.invalidCode, db)
              | some codes2 =>
                let db1 : DB := { db with users := db.users.map (fun v =>
                  if v.id = u.id then { v with backupCodes := some codes2 } else v) }
                finishMfaLogin db1 u sid accessToken refreshToken deviceId ip
                  userAgent deviceName platform now

/-- Outcome of the mounted POST /mfa/enable (routes/auth.ts). -/
inductive EnableMfaResult where
  | notSetup
  | invalidCode
  | decryptFailure
  | enabled
deriving DecidableEq

/-- routes/auth.ts POST /mfa/enable: load the user and stored secret,
decrypt, verify the code with window 2, and set mfaEnabled. -/
def routeEnableMfa (prim : CryptoPrim) (encKey : String)
    (totp : List (Fin 256) → Int → String) (db : DB) (userId code : String)
    (tstep : Int) : EnableMfaResult × DB :=
  match db.users.find? (fun u => u.id == userId) with
  | none => (.notSetup, db)
  | some u =>
    match u.mfaSecret with
    | none => (.notSetup, db)
    | some blob =>
      match decryptBlob prim encKey blob with
      | .error _ => (.decryptFailure, db)
      | .ok secret =>
        if totpVerify totp secret code 2 tstep then
          (.enabled, { db with users := db.users.map (fun v =>
            if v.id = u.id then { v with mfaEnabled := true } else v) })
        else (.invalidCode, db)

/-- C4: the MFA-verify (login) flow accepts a TOTP code exactly within
a one-step window each side, and the mounted MFA-enable route accepts
exactly within a two-step window, for every submitted code. Stated for
a user whose stored backup-code set is absent so that acceptance in the
verify flow is the TOTP check alone. -/
theorem totp_window_verify_one_enable_two (mac : String → JwtPayload → String)
    (jwtSecret : String) (prim : CryptoPrim) (encKey : String)
    (totp : List (Fin 256) → Int → String) (db : DB)
    (tempToken : SignedToken) (code : String) (now : Nat) (tstep : Int)
    (sid accessToken refreshToken deviceId deviceName platform userAgent : String)
    (ip : Option String) (uid : String) (u : User) (blob : List Char)
    (secret : List (Fin 256))
    (htok : verifyTempToken mac jwtSecret tempToken now = some uid)
    (hfind : db.users.find? (fun v => v.id == uid) = some u)
    (hsec : u.mfaSecret = some blob)
    (hdec : decryptBlob prim encKey blob = Except.ok secret)
    (hbc : u.backupCodes = none) :
    ((verifyMfa mac jwtSecret prim encKey totp db tempToken code now tstep
        sid accessToken refreshToken deviceId deviceName platform userAgent ip).1 =
        .success accessToken refreshToken ↔
      ∃ d : Int, d.natAbs ≤ 1 ∧ totp secret (tstep + d) = code) ∧
    ((routeEnableMfa prim encKey totp db uid code tstep).1 = .enabled ↔
      ∃ d : Int, d.natAbs ≤ 2 ∧ totp secret (tstep + d) = code) := by
  constructor
  · rw [← totpVerify_iff]
    by_cases h : totpVerify totp secret code 1 tstep
    · simp [verifyMfa, htok, hfind, hsec, hdec, h, finishMfaLogin]
    · simp [verifyMfa, htok, hfind, hsec, hdec, h, hbc]
  · rw [← totpVerify_iff]
    by_cases h : totpVerify totp secret code 2 tstep
    · simp [routeEnableMfa, hfind, hsec, hdec, h]
    · simp [routeEnableMfa, hfind, hsec, hdec, h]

/-! ### Helper lemmas for the backup-code flow -/

theorem findIdx?_go_erase (code : String) :
    ∀ (codes : List String) (s i : Nat),
      List.findIdx? (fun c => c == code) codes s = some i →
      s ≤ i ∧ codes.eraseIdx (i - s) = codes.erase code := by
  intro codes
  induction codes with
  | nil => intro s i h; simp [List.findIdx?] at h
  | cons c cs ih =>
    intro s i h
    rw [List.findIdx?_cons] at h
    by_cases hc : c == code
    · rw [if_pos hc] at h
      have hi : i = s := by simpa using h.symm
      subst hi
      refine ⟨le_refl _, ?_⟩
      simp only [Nat.sub_self, List.eraseIdx]
      rw [List.erase_cons, if_pos (by simpa using hc)]
    · rw [if_neg hc] at h
      obtain ⟨hle, he⟩ := ih (s + 1) i h
      refine ⟨by omega, ?_⟩
      have h2 : i - s = (i - (s + 1)) + 1 := by omega
      rw [h2]
      simp only [List.eraseIdx]
      rw [List.erase_cons, if_neg (by simpa using hc), he]

theorem eraseIdx_of_findIdx? (code : String) (codes : List String) (i : Nat)
    (h : codes.findIdx? (fun c => c == code) = some i) :
    codes.eraseIdx i = codes.erase code := by
  have h2 := findIdx?_go_erase code codes 0 i h
  simpa using h2.2

theorem findIdx?_none_of_not_mem (code : String) :
    ∀ (codes : List String) (s : Nat), code ∉ codes →
      List.findIdx? (fun c => c == code) codes s = none := by
  intro codes
  induction codes with
  | nil => intro s _; rfl
  | cons c cs ih =>
    intro s h
    rw [List.findIdx?_cons]
    have hc : ¬ (c == code) = true := by
      simp only [beq_iff_eq]
      intro hcc
      exact h (hcc ▸ List.mem_cons_self c cs)
    rw [if_neg hc]
    exact ih (s + 1) (fun hm => h (List.mem_cons_of_mem c hm))

theorem findIdx?_isSome_of_mem (code : String) :
    ∀ (codes : List String) (s : Nat), code ∈ codes →
      (List.findIdx? (fun c => c == code) codes s).isSome := by
  intro codes
  induction codes with
  | nil => intro s h; simp at h
  | cons c cs ih =>
    intro s h
    rw [List.findIdx?_cons]
    by_cases hc : (c == code) = true
    · rw [if_pos hc]; rfl
    · rw [if_neg hc]
      apply ih
      rcases List.mem_cons.mp h with h1 | h1
      · exact absurd (by simp [h1]) hc
      · exact h1

/-- A present backup code is consumed to exactly the erase of its first
occurrence. -/
theorem consumeBackupCode_of_mem (codes : List String) (code : String)
    (hin : code ∈ codes) :
    consumeBackupCode codes code = some (codes.erase code) := by
  unfold consumeBackupCode
  rcases hidx : codes.findIdx? (fun c => c == code) with _ | i
  · exfalso
    have h2 := findIdx?_isSome_of_mem code codes 0 hin
    rw [hidx] at h2
    simp at h2
  · simp only []
    rw [eraseIdx_of_findIdx? code codes i hidx]

/-- An absent backup code is not consumed. -/
theorem consumeBackupCode_of_not_mem (codes : List String) (code : String)
    (hout : code ∉ codes) : consumeBackupCode codes code = none := by
  unfold consumeBackupCode
  rw [findIdx?_none_of_not_mem code codes 0 hout]

theorem find?_map_pres {α : Type} (f : α → α) (p : α → Bool)
    (hf : ∀ v, p (f v) = p v) :
    ∀ (l : List α), (l.map f).find? p = (l.find? p).map f := by
  intro l
  induction l with
  | nil => rfl
  | cons a l ih =>
    simp only [List.map_cons, List.find?_cons, hf a]
    by_cases h : p a
    · simp [h]
    · simp only [Bool.not_eq_true] at h
      simp [h, ih]

theorem recordDevice_users (db : DB) (userId deviceId name platform : String)
    (now : Nat) : (recordDevice db userId deviceId name platform now).users = db.users := by
  unfold recordDevice
  split <;> rfl

theorem createSession_snd_users (db : DB)
    (sid userId accessToken refreshToken deviceId : String)
    (ip : Option String) (userAgent : String) (now : Nat) :
    (createSession db sid userId accessToken refreshToken deviceId ip userAgent now).2.users =
      db.users := rfl

/-- C5: each backup code is usable exactly once. When the TOTP check
fails and the submitted code sits in the stored (duplicate-free)
backup-code set, MFA verification succeeds, the stored set afterwards
is exactly the previous set with that one first occurrence removed
(one element shorter, every other code still present), and a second
submission of the same code against the resulting state fails with
invalid-code. -/
theorem backup_code_single_use (mac : String → JwtPayload → String)
    (jwtSecret : String) (prim : CryptoPrim) (encKey : String)
    (totp : List (Fin 256) → Int → String) (db : DB)
    (tempToken : SignedToken) (code : String) (now : Nat) (tstep : Int)
    (sid accessToken refreshToken deviceId deviceName platform userAgent : String)
    (sid2 accessToken2 refreshToken2 deviceId2 deviceName2 platform2 userAgent2 : String)
    (ip ip2 : Option String) (uid : String) (u : User) (blob : List Char)
    (secret : List (Fin 256)) (codes : List String)
    (htok : verifyTempToken mac jwtSecret tempToken now = some uid)
    (hfind : db.users.find? (fun v => v.id == uid) = some u)
    (hsec : u.mfaSecret = some blob)
    (hdec : decryptBlob prim encKey blob = Except.ok secret)
    (htotp : totpVerify totp secret code 1 tstep = false)
    (hbc : u.backupCodes = some codes)
    (hin : code ∈ codes) (hnd : codes.Nodup) :
    (verifyMfa mac jwtSecret prim encKey totp db tempToken code now tstep
        sid accessToken refreshToken deviceId deviceName platform userAgent ip).1 =
      .success accessToken refreshToken ∧
    (∀ v ∈ (verifyMfa mac jwtSecret prim encKey totp db tempToken code now tstep
        sid accessToken refreshToken deviceId deviceName platform userAgent ip).2.users,
      v.id = u.id → v.backupCodes = some (codes.erase code)) ∧
    (codes.erase code).length + 1 = codes.length ∧
    (∀ c ∈ codes, c ≠ code → c ∈ codes.erase code) ∧
    (verifyMfa mac jwtSecret prim encKey totp
        (verifyMfa mac jwtSecret prim encKey totp db tempToken code now tstep
          sid accessToken refreshToken deviceId deviceName platform userAgent ip).2
        tempToken code now tstep
        sid2 accessToken2 refreshToken2 deviceId2 deviceName2 platform2 userAgent2 ip2).1 =
      .invalidCode := by
  have huid : u.id = uid := by
    have h1 := List.find?_some hfind
    simpa using h1
  have hcons := consumeBackupCode_of_mem codes code hin
  have hres : verifyMfa mac jwtSecret prim encKey totp db tempToken code now tstep
      sid accessToken refreshToken deviceId deviceName platform userAgent ip =
      finishMfaLogin
        { db with users := db.users.map (fun v =>
            if v.id = u.id then { v with backupCodes := some (codes.erase code) } else v) }
        u sid accessToken refreshToken deviceId ip userAgent deviceName platform now := by
    simp [verifyMfa, htok, hfind, hsec, hdec, htotp, hbc, hcons]
  have husers : (verifyMfa mac jwtSecret prim encKey totp db tempToken code now tstep
      sid accessToken refreshToken deviceId deviceName platform userAgent ip).2.users =
      (db.users.map (fun v =>
          if v.id = u.id then { v with backupCodes := some (codes.erase code) } else v)).map
        (fun v => if v.id = u.id then { v with lastLoginAt := some now } else v) := by
    rw [hres]
    simp only [finishMfaLogin]
    rw [recordDevice_users, createSession_snd_users]
  refine ⟨?_, ?_, ?_, ?_, ?_⟩
  · rw [hres]
    rfl
  · intro v hv hvid
    rw [husers] at hv
    simp only [List.mem_map] at hv
    rcases hv with ⟨w, hw, rfl⟩
    rcases hw with ⟨x, hx, rfl⟩
    by_cases hxid : x.id = u.id
    · simp [hxid]
    · simp only [if_neg hxid] at hvid ⊢
      exact absurd hvid hxid
  · rw [List.length_erase_of_mem hin]
    have hlen : codes.length ≠ 0 := by
      intro h0
      rw [List.length_eq_zero] at h0
      subst h0
      simp at hin
    omega
  · intro c hc hne
    exact (List.mem_erase_of_ne hne).mpr hc
  · have hfind2 : (verifyMfa mac jwtSecret prim encKey totp db tempToken code now tstep
        sid accessToken refreshToken deviceId deviceName platform userAgent ip).2.users.find?
          (fun v => v.id == uid) =
        some { u with backupCodes := some (codes.erase code), lastLoginAt := some now } := by
      rw [husers]
      rw [find?_map_pres _ _ (fun v => by by_cases h : v.id = u.id <;> simp [h])]
      rw [find?_map_pres _ _ (fun v => by by_cases h : v.id = u.id <;> simp [h])]
      rw [hfind]
      simp
    generalize hg : (verifyMfa mac jwtSecret prim encKey totp db tempToken code now tstep
        sid accessToken refreshToken deviceId deviceName platform userAgent ip).2 = dbx
      at hfind2 ⊢
    simp [verifyMfa, htok, hfind2, hsec, hdec, htotp,
      consumeBackupCode_of_not_mem _ _ (hnd.not_mem_erase)]

/-! ### Concrete fixtures for the MFA witnesses -/

/-- A blob the trivial cipher accepts: hex fields aa, bb, dd, dd; the
tag field equals the ciphertext field, which is what plainPrim
computes as tag. -/
def wBlob : List Char := ['a', 'a', ':', 'b', 'b', ':', 'd', 'd', ':', 'd', 'd']

/-- A concrete MAC for witness tokens. -/
def wMac : String → JwtPayload → String := fun s p => s ++ p.userId ++ p.type

/-- A concrete TOTP code function: code 123456 exactly at step 3. -/
def wTotp : List (Fin 256) → Int → String :=
  fun _ t => if t = 3 then "123456" else "000000"

/-- A fixture MFA user storing wBlob as encrypted secret. -/
def wMfaUser (bc : Option (List String)) : User :=
  { id := "u1", email := "a@x.com", passwordHash := some "pw",
    name := none, mfaEnabled := true, mfaSecret := some wBlob,
    backupCodes := bc, passwordResetTokenHash := none,
    passwordResetTokenExpiry := none, deletedAt := none,
    lastLoginAt := none, subscriptionTier := "FREE",
    subscriptionStatus := "TRIAL", trialEndsAt := none }

/-- A fixture database with the single MFA user. -/
def wDb (bc : Option (List String)) : DB :=
  { users := [wMfaUser bc], sessions := [], devices := [] }

/-- Witness for C4 at the concrete fixture: current step 2, code of
step 3, accepted by both windows. -/
theorem totp_window_verify_one_enable_two_witness :
    ((verifyMfa wMac "sec" plainPrim "k" wTotp (wDb none)
        (createTempToken wMac "sec" "u1" 0) "123456" 5 2
        "s1" "a1" "r1" "d1" "Mac" "web" "ua" none).1 = .success "a1" "r1" ↔
      ∃ d : Int, d.natAbs ≤ 1 ∧ wTotp [221] (2 + d) = "123456") ∧
    ((routeEnableMfa plainPrim "k" wTotp (wDb none) "u1" "123456" 2).1 = .enabled ↔
      ∃ d : Int, d.natAbs ≤ 2 ∧ wTotp [221] (2 + d) = "123456") := by
  exact totp_window_verify_one_enable_two wMac "sec" plainPrim "k" wTotp (wDb none)
    (createTempToken wMac "sec" "u1" 0) "123456" 5 2 "s1" "a1" "r1" "d1" "Mac" "web" "ua"
    none "u1" (wMfaUser none) wBlob [221]
    (by decide) (by decide) rfl rfl rfl

/-- Witness for C5 at the concrete fixture: backup code AAAA consumed,
BBBB kept, second submission of AAAA rejected. -/
theorem backup_code_single_use_witness :
    (verifyMfa wMac "sec" plainPrim "k" wTotp (wDb (some ["AAAA", "BBBB"]))
        (createTempToken wMac "sec" "u1" 0) "AAAA" 5 2
        "s1" "a1" "r1" "d1" "Mac" "web" "ua" none).1 = .success "a1" "r1" ∧
    (∀ v ∈ (verifyMfa wMac "sec" plainPrim "k" wTotp (wDb (some ["AAAA", "BBBB"]))
        (createTempToken wMac "sec" "u1" 0) "AAAA" 5 2
        "s1" "a1" "r1" "d1" "Mac" "web" "ua" none).2.users,
      v.id = (wMfaUser (some ["AAAA", "BBBB"])).id →
        v.backupCodes = some (["AAAA", "BBBB"].erase "AAAA")) ∧
    (["AAAA", "BBBB"].erase "AAAA").length + 1 = (["AAAA", "BBBB"] : List String).length ∧
    (∀ c ∈ (["AAAA", "BBBB"] : List String), c ≠ "AAAA" → c ∈ ["AAAA", "BBBB"].erase "AAAA") ∧
    (verifyMfa wMac "sec" plainPrim "k" wTotp
        (verifyMfa wMac "sec" plainPrim "k" wTotp (wDb (some ["AAAA", "BBBB"]))
          (createTempToken wMac "sec" "u1" 0) "AAAA" 5 2
          "s1" "a1" "r1" "d1" "Mac" "web" "ua" none).2
        (createTempToken wMac "sec" "u1" 0) "AAAA" 5 2
        "s2" "a2" "r2" "d2" "Mac" "web" "ua" none).1 = .invalidCode := by
  exact backup_code_single_use wMac "sec" plainPrim "k" wTotp (wDb (some ["AAAA", "BBBB"]))
    (createTempToken wMac "sec" "u1" 0) "AAAA" 5 2
    "s1" "a1" "r1" "d1" "Mac" "web" "ua"
    "s2" "a2" "r2" "d2" "Mac" "web" "ua" none none
    "u1" (wMfaUser (some ["AAAA", "BBBB"])) wBlob [221] ["AAAA", "BBBB"]
    (by decide) (by decide) rfl rfl (by decide) rfl (by decide) (by decide)

/-! ### Temporary MFA token validity (C9) -/

/-- Validity of a created temp token is exactly the time bound. -/
theorem verifyTempToken_createTempToken (mac : String → JwtPayload → String)
    (secret uid : String) (n m : Nat) :
    verifyTempToken mac secret (createTempToken mac secret uid n) m =
      if m < n + 600 then some uid else none := by
  unfold verifyTempToken jwtVerify createTempToken jwtSign
  by_cases h : m < n + 600
  · simp [h]
  · simp [h]

/-- C9: verifyTemporaryToken returns the embedded userId exactly when
the signature matches, the current time is within the expiry, and the
type tag is mfa_temp; a created token expires 600 seconds after
creation; verification is pure and does not consume the token — it
succeeds whenever the time is within the expiry, and two verifications
of the same token agree exactly when they fall on the same side of the
expiry. -/
theorem temp_token_validity_stateless (mac : String → JwtPayload → String)
    (secret : String) (t : SignedToken) (now : Nat) (uid : String) (n m1 m2 : Nat) :
    (verifyTempToken mac secret t now = some uid ↔
      (t.sig = mac secret t.payload ∧ now < t.payload.exp ∧
       t.payload.type = "mfa_temp" ∧ t.payload.userId = uid)) ∧
    (createTempToken mac secret uid n).payload.exp = n + 600 ∧
    (m1 < n + 600 →
      verifyTempToken mac secret (createTempToken mac secret uid n) m1 = some uid) ∧
    (verifyTempToken mac secret (createTempToken mac secret uid n) m1 =
        verifyTempToken mac secret (createTempToken mac secret uid n) m2 ↔
      (m1 < n + 600 ↔ m2 < n + 600)) := by
  refine ⟨?_, rfl, ?_, ?_⟩
  · unfold verifyTempToken jwtVerify
    by_cases h : t.sig = mac secret t.payload ∧ now < t.payload.exp
    · rw [if_pos h]
      by_cases ht : t.payload.type = "mfa_temp"
      · simp [ht, h.1, h.2]
      · simp [ht]
    · rw [if_neg h]
      constructor
      · intro h2
        exact Option.noConfusion h2
      · intro h2
        exact absurd ⟨h2.1, h2.2.1⟩ h
  · intro hm
    rw [verifyTempToken_createTempToken, if_pos hm]
  · rw [verifyTempToken_createTempToken, verifyTempToken_createTempToken]
    by_cases h1 : m1 < n + 600 <;> by_cases h2 : m2 < n + 600 <;> simp [h1, h2]

/-- Witness for C9 at a concrete token. -/
theorem temp_token_validity_stateless_witness :
    (verifyTempToken wMac "sec" (createTempToken wMac "sec" "u9" 50) 100 = some "u9" ↔
      ((createTempToken wMac "sec" "u9" 50).sig =
          wMac "sec" (createTempToken wMac "sec" "u9" 50).payload ∧
        100 < (createTempToken wMac "sec" "u9" 50).payload.exp ∧
        (createTempToken wMac "sec" "u9" 50).payload.type = "mfa_temp" ∧
        (createTempToken wMac "sec" "u9" 50).payload.userId = "u9")) ∧
    (createTempToken wMac "sec" "u9" 50).payload.exp = 50 + 600 ∧
    (100 < 50 + 600 →
      verifyTempToken wMac "sec" (createTempToken wMac "sec" "u9" 50) 100 = some "u9") ∧
    (verifyTempToken wMac "sec" (createTempToken wMac "sec" "u9" 50) 100 =
        verifyTempToken wMac "sec" (createTempToken wMac "sec" "u9" 50) 2000 ↔
      (100 < 50 + 600 ↔ 2000 < 50 + 600)) := by
  exact temp_token_validity_stateless wMac "sec" (createTempToken wMac "sec" "u9" 50)
    100 "u9" 50 100 2000

/-! ### Bearer authentication (middleware/auth.ts) and soft delete (C10) -/

/-- Outcome of the authenticate middleware. -/
inductive AuthOutcome where
  | invalidToken
  | unauthorized
  | subscriptionRequired
  | authorized (uid : String)
deriving DecidableEq

/-- middleware/auth.ts authenticate: jwt.verify the bearer token, load
the user, reject absent or soft-deleted users with 401, apply the
subscription gate, otherwise attach the user. -/
def authenticate (mac : String → JwtPayload → String) (jwtSecret : String)
    (db : DB) (t : SignedToken) (now : Nat) : AuthOutcome :=
  match jwtVerify mac jwtSecret t now with
  | none => .invalidToken
  | some p =>
    match db.users.find? (fun u => u.id == p.userId) with
    | none => .unauthorized
    | some u =>
      if u.deletedAt.isSome then .unauthorized
      else if u.subscriptionTier ≠ "FREE" ∧ u.subscriptionStatus ≠ "ACTIVE" ∧
          u.subscriptionStatus ≠ "TRIAL" then .subscriptionRequired
      else .authorized u.id

/-- A unique unexpired refresh token refreshes successfully. -/
theorem refreshAccessToken_success (db : DB) (rt na nr : String) (now : Nat)
    (s : Session) (hmem : s ∈ db.sessions) (hrt : s.refreshToken = rt)
    (huniq : ∀ x ∈ db.sessions, x.refreshToken = rt → x = s)
    (hexp : ¬ s.expiresAt < now) :
    (refreshAccessToken db rt na nr now).1 = some (na, nr) := by
  have hfind : db.sessions.find? (fun x => x.refreshToken == rt) = some s := by
    rcases hf : db.sessions.find? (fun x => x.refreshToken == rt) with _ | s'
    · exfalso
      have h2 := List.find?_eq_none.mp hf s hmem
      simp [hrt] at h2
    · have h1 : s'.refreshToken = rt := by
        have h3 := List.find?_some hf
        simpa using h3
      have h2 : s' ∈ db.sessions := List.mem_of_find?_eq_some hf
      rw [← huniq s' h2 h1]
      exact hf
  simp [refreshAccessToken, hfind, hexp]

/-- C10: soft-deleting a user does not invalidate their sessions — the
refresh of an unexpired session succeeds although the owning user has
the deletedAt marker set, while bearer-token authentication rejects the
same deleted user. -/
theorem soft_deleted_user_refresh_succeeds (mac : String → JwtPayload → String)
    (jwtSecret : String) (db : DB) (rt na nr : String) (now now2 dts : Nat)
    (s : Session) (u : User) (tok : SignedToken)
    (hmem : s ∈ db.sessions) (hrt : s.refreshToken = rt)
    (huniq : ∀ x ∈ db.sessions, x.refreshToken = rt → x = s)
    (hexp : ¬ s.expiresAt < now)
    (_howner : s.userId = u.id)
    (hu : db.users.find? (fun v => v.id == tok.payload.userId) = some u)
    (hdel : u.deletedAt = some dts)
    (hsig : tok.sig = mac jwtSecret tok.payload)
    (htime : now2 < tok.payload.exp) :
    (refreshAccessToken db rt na nr now).1 = some (na, nr) ∧
    authenticate mac jwtSecret db tok now2 = .unauthorized := by
  refine ⟨refreshAccessToken_success db rt na nr now s hmem hrt huniq hexp, ?_⟩
  have hcond : tok.sig = mac jwtSecret tok.payload ∧ now2 < tok.payload.exp :=
    ⟨hsig, htime⟩
  simp [authenticate, jwtVerify, hcond, hu, hdel]

/-- Witness for C10: a deleted user with a live session. -/
theorem soft_deleted_user_refresh_succeeds_witness :
    (refreshAccessToken
        { users := [{ id := "u1", email := "a@x.com", passwordHash := some "pw",
                      name := none, mfaEnabled := false, mfaSecret := none,
                      backupCodes := none, passwordResetTokenHash := none,
                      passwordResetTokenExpiry := none, deletedAt := some 10,
                      lastLoginAt := none, subscriptionTier := "FREE",
                      subscriptionStatus := "TRIAL", trialEndsAt := none }],
          sessions :=
            [{ id := "s1", userId := "u1", token := "a0", refreshToken := "r0",
               deviceId := "d1", ipAddress := none, userAgent := "ua",
               createdAt := 0, lastUsedAt := 0, expiresAt := 1000 }],
          devices := [] } "r0" "a1" "r1" 5).1 = some ("a1", "r1") ∧
    authenticate wMac "sec"
        { users := [{ id := "u1", email := "a@x.com", passwordHash := some "pw",
                      name := none, mfaEnabled := false, mfaSecret := none,
                      backupCodes := none, passwordResetTokenHash := none,
                      passwordResetTokenExpiry := none, deletedAt := some 10,
                      lastLoginAt := none, subscriptionTier := "FREE",
                      subscriptionStatus := "TRIAL", trialEndsAt := none }],
          sessions :=
            [{ id := "s1", userId := "u1", token := "a0", refreshToken := "r0",
               deviceId := "d1", ipAddress := none, userAgent := "ua",
               createdAt := 0, lastUsedAt := 0, expiresAt := 1000 }],
          devices := [] }
        (jwtSign wMac "sec" { userId := "u1", type := "access", exp := 700 }) 100 =
      .unauthorized := by
  exact soft_deleted_user_refresh_succeeds wMac "sec" _ "r0" "a1" "r1" 5 100 10
    { id := "s1", userId := "u1", token := "a0", refreshToken := "r0",
      deviceId := "d1", ipAddress := none, userAgent := "ua",
      createdAt := 0, lastUsedAt := 0, expiresAt := 1000 }
    { id := "u1", email := "a@x.com", passwordHash := some "pw",
      name := none, mfaEnabled := false, mfaSecret := none,
      backupCodes := none, passwordResetTokenHash := none,
      passwordResetTokenExpiry := none, deletedAt := some 10,
      lastLoginAt := none, subscriptionTier := "FREE",
      subscriptionStatus := "TRIAL", trialEndsAt := none }
    (jwtSign wMac "sec" { userId := "u1", type := "access", exp := 700 })
    (by simp) (by decide) (by intro x hx; simp at hx; simp [hx]) (by decide)
    (by decide) (by decide) (by decide) (by decide) (by decide)

/-! ### Registration (mounted handler: routes/auth.ts POST /register) -/

/-- Outcome of the register route. -/
inductive RegisterResult where
  | emailTaken
  | serverError
  | created (accessToken refreshToken : String)
deriving DecidableEq

/-- routes/auth.ts POST /register: reject a taken email with 409;
create the user with a 14-day trial; create the session and record the
device; then await sendWelcomeEmail with no surrounding catch — when
the send rejects (`emailSendOk = false`) control jumps to the outer
catch, which answers 500 Registration failed, although the user,
session and device rows are already committed; only when the send
resolves is the 201 with the token pair returned. -/
def registerRoute (db : DB) (email passwordHash name : String)
    (newUserId sid accessToken refreshToken deviceId deviceName platform userAgent : String)
    (ip : Option String) (now : Nat) (emailSendOk : Bool) : RegisterResult × DB :=
  match db.users.find? (fun u => u.email == email) with
  | some _ => (.emailTaken, db)
  | none =>
    let u : User :=
      { id := newUserId, email := email, passwordHash := some passwordHash,
        name := some name, mfaEnabled := false, mfaSecret := none,
        backupCodes := none, passwordResetTokenHash := none,
        passwordResetTokenExpiry := none, deletedAt := none,
        lastLoginAt := none, subscriptionTier := "FREE",
        subscriptionStatus := "TRIAL",
        trialEndsAt := some (now + 14 * 24 * 60 * 60 * 1000) }
    let db1 : DB := { db with users := db.users ++ [u] }
    let r := createSession db1 sid newUserId accessToken refreshToken deviceId ip userAgent now
    let db3 := recordDevice r.2 newUserId deviceId deviceName platform now
    if emailSendOk then (.created accessToken refreshToken, db3)
    else (.serverError, db3)

/-- C8 (divergence witness): at a fresh email with a failing welcome
email send, the mounted register route creates the user and the
session but answers 500 instead of the 201 with tokens the
specification requires; registration has failed as seen by the
client although the account exists. -/
theorem register_email_failure_returns_500 :
    (registerRoute { users := [], sessions := [], devices := [] }
        "a@x.com" "ph" "Alice" "u1" "s1" "a1" "r1" "d1" "Mac" "web" "ua" none 0 false).1 =
      .serverError ∧
    (registerRoute { users := [], sessions := [], devices := [] }
        "a@x.com" "ph" "Alice" "u1" "s1" "a1" "r1" "d1" "Mac" "web" "ua" none 0 false).1 ≠
      .created "a1" "r1" ∧
    ((registerRoute { users := [], sessions := [], devices := [] }
        "a@x.com" "ph" "Alice" "u1" "s1" "a1" "r1" "d1" "Mac" "web" "ua" none 0 false).2.users.map
      (fun u => u.email)) = ["a@x.com"] ∧
    ((registerRoute { users := [], sessions := [], devices := [] }
        "a@x.com" "ph" "Alice" "u1" "s1" "a1" "r1" "d1" "Mac" "web" "ua" none 0 false).2.sessions.map
      (fun s => s.userId)) = ["u1"] := by
  refine ⟨rfl, ?_, rfl, rfl⟩
  decide

/-! ### Backup-code storage forms (C6) -/

/-- JSON string quoting of a plain (escape-free) code. -/
def jsonQuote (s : String) : List Char :=
  '"' :: (s.data ++ ['"'])

/-- JSON.stringify of an array of plain strings: the exact column text
authController.enableMfa persists for the backup-code set. -/
def jsonStringifyCodes : List String → List Char
  | [] => ['[', ']']
  | c :: cs =>
    '[' :: (jsonQuote c ++ cs.foldr (fun x acc => ',' :: (jsonQuote x ++ acc)) [']'])

/-- Bytes of an ASCII code string as the node cipher consumes it. -/
def strToBytes (s : String) : List (Fin 256) :=
  s.data.map (fun c => ⟨c.toNat % 256, Nat.mod_lt _ (by norm_num)⟩)

/-- The backup-code entries persisted by the mounted POST /mfa/setup:
each code encrypted separately, with its own random salt and iv. -/
def mfaSetupStoredBackupEntries (prim : CryptoPrim) (key : String)
    (codes : List String) (saltsIvs : List (List (Fin 256) × List (Fin 256))) :
    List (List Char) :=
  (codes.zip saltsIvs).map (fun x => encryptBlob prim key (strToBytes x.1) x.2.1 x.2.2)

theorem colon_not_mem_jsonQuote (s : String) (h : ':' ∉ s.data) :
    ':' ∉ jsonQuote s := by
  simp only [jsonQuote, List.mem_cons, List.mem_append, List.mem_singleton]
  rintro (h1 | h1 | h1)
  · exact absurd h1.symm (by decide)
  · exact h h1
  · exact absurd h1 (by decide)

theorem colon_not_mem_jsonFold (rest : List String)
    (h : ∀ c ∈ rest, ':' ∉ c.data) :
    ':' ∉ rest.foldr (fun x acc => ',' :: (jsonQuote x ++ acc)) [']'] := by
  induction rest with
  | nil => decide
  | cons c cs ih =>
    simp only [List.foldr_cons, List.mem_cons, List.mem_append]
    rintro (h1 | h1 | h1)
    · exact absurd h1.symm (by decide)
    · exact colon_not_mem_jsonQuote c (h c (List.mem_cons_self c cs)) h1
    · exact ih (fun x hx => h x (List.mem_cons_of_mem c hx)) h1

theorem colon_not_mem_jsonStringifyCodes (codes : List String)
    (h : ∀ c ∈ codes, ':' ∉ c.data) : ':' ∉ jsonStringifyCodes codes := by
  cases codes with
  | nil => decide
  | cons c cs =>
    simp only [jsonStringifyCodes, List.mem_cons, List.mem_append]
    rintro (h1 | h1 | h1)
    · exact absurd h1.symm (by decide)
    · exact colon_not_mem_jsonQuote c (h c (List.mem_cons_self c cs)) h1
    · exact colon_not_mem_jsonFold cs (fun x hx => h x (List.mem_cons_of_mem c hx)) h1

/-- C6 counterexample: the column text the controller enable-MFA flow
persists for the concrete backup-code set AABB12CD is not an output of
the symmetric encryptor — every encryptor output splits into four
colon-joined fields, the persisted text into one. -/
theorem backup_codes_stored_plaintext_counterexample :
    ¬ ∃ (p salt iv : List (Fin 256)),
      jsonStringifyCodes ["AABB12CD"] = encryptBlob plainPrim "k" p salt iv := by
  rintro ⟨p, salt, iv, h⟩
  have h2 := congrArg (fun l => (splitColon l).length) h
  simp only [] at h2
  have h3 : (splitColon (encryptBlob plainPrim "k" p salt iv)).length = 4 := by
    rw [splitColon_encryptBlob]
    rfl
  have h1 : (splitColon (jsonStringifyCodes ["AABB12CD"])).length = 1 := by decide
  rw [h1, h3] at h2
  exact absurd h2 (by decide)

/-- C6 amended: backup codes are stored encrypted only by the mounted
MFA-setup route (each stored entry is an encryptor blob, with its four
colon-joined fields); the controller enable-MFA flow persists the
plaintext JSON of the codes, which is never an encryptor blob; and the
MFA-verify fallback compares the submitted code directly against the
stored values with no decryption — acceptance is exactly plaintext
membership of the submitted code in the stored list. -/
theorem backup_codes_storage_amended (prim : CryptoPrim) (key : String)
    (codes : List String) (saltsIvs : List (List (Fin 256) × List (Fin 256)))
    (code : String) (stored : List String)
    (hcodes : ∀ c ∈ codes, ':' ∉ c.data) :
    (∀ e ∈ mfaSetupStoredBackupEntries prim key codes saltsIvs,
      (splitColon e).length = 4) ∧
    (∀ p salt iv : List (Fin 256),
      jsonStringifyCodes codes ≠ encryptBlob prim key p salt iv) ∧
    ((consumeBackupCode stored code).isSome ↔ code ∈ stored) := by
  refine ⟨?_, ?_, ?_⟩
  · intro e he
    simp only [mfaSetupStoredBackupEntries, List.mem_map] at he
    rcases he with ⟨x, _, rfl⟩
    rw [splitColon_encryptBlob]
    rfl
  · intro p salt iv h
    have h2 := congrArg (fun l => (splitColon l).length) h
    simp only [] at h2
    rw [splitColon_no_colon _ (colon_not_mem_jsonStringifyCodes codes hcodes),
      splitColon_encryptBlob] at h2
    simp at h2
  · constructor
    · intro h
      by_cases hm : code ∈ stored
      · exact hm
      · rw [consumeBackupCode_of_not_mem stored code hm] at h
        exact absurd h (by decide)
    · intro hm
      rw [consumeBackupCode_of_mem stored code hm]
      rfl

/-- Witness for the amended C6 at concrete codes and the trivial
cipher. -/
theorem backup_codes_storage_amended_witness :
    (∀ e ∈ mfaSetupStoredBackupEntries plainPrim "k" ["AB12", "CD34"]
        [([1], [2]), ([3], [4])], (splitColon e).length = 4) ∧
    (∀ p salt iv : List (Fin 256),
      jsonStringifyCodes ["AB12", "CD34"] ≠ encryptBlob plainPrim "k" p salt iv) ∧
    ((consumeBackupCode ["AB12", "CD34"] "AB12").isSome ↔
      "AB12" ∈ (["AB12", "CD34"] : List String)) := by
  exact backup_codes_storage_amended plainPrim "k" ["AB12", "CD34"]
    [([1], [2]), ([3], [4])] "AB12" ["AB12", "CD34"] (by decide)

end Wyndo
